import Mathlib

/-! The status service of `main.go`

`main.go` registers one handler on the default route table, logs one line
and listens on `:8080`.  The handler builds a `Response`, sets the
`Content-Type` header and encodes the value as JSON onto the response writer.

The program's own code is embedded from `main.go`.  What it calls in Go's
standard library (`encoding/json`, `net/http`, `log`) is embedded from the
library's sources, as far as the program exercises it, and marked as such.
A response is what the handler hands to its `http.ResponseWriter`, the
status code, the header map frozen at the first write and the bytes written,
and what the server sends of it: the body bytes that go out to the client,
none for a `HEAD` request.
-/

namespace StatusService

/-- Go `string` as the list of its characters.  The texts of this program
are ASCII, one character a byte; a character outside ASCII stands for the
bytes of its UTF-8 encoding. -/
abbrev GoString := List Char

/-! ## `encoding/json`: encoding -/

/-- Values handed to `json.Marshal`, by kind, as far as the encoder
distinguishes them here: strings, booleans, integers, structs (their exported
fields with the JSON key of each), and the kinds the encoder refuses. -/
inductive GoValue where
  | string (s : GoString)
  | bool (b : Bool)
  | int (n : Int)
  | struct (fields : List (GoString × GoValue))
  | chan
  | func
  | complex

/-- Errors of `json.Marshal`; `UnsupportedTypeError` carries the kind's name. -/
inductive MarshalError where
  | UnsupportedTypeError (kind : GoString)
deriving DecidableEq, Repr

/-- `const hex = "0123456789abcdef"` of encoding/json, indexed. -/
def hex (n : Nat) : Char :=
  "0123456789abcdef".toList.getD n '0'

/-- `htmlSafeSet` of encoding/json for an ASCII character: everything from
space on except the double quote, the backslash and `<`, `>`, `&`. -/
def htmlSafeSet (c : Char) : Bool :=
  0x20 ≤ c.toNat && c.toNat < 0x80 &&
    !(c = '"' || c = '\\' || c = '<' || c = '>' || c = '&')

/-- One step of `appendString` of encoding/json with `escapeHTML` set, as an
`Encoder` has it by default: what the character `c` of the source string
contributes to the output (backspace and form feed as `\b` and `\f`, as from
Go 1.22 on). -/
def appendChar (c : Char) : GoString :=
  if c.toNat < 0x80 then
    if htmlSafeSet c then [c]
    else if c = '\\' ∨ c = '"' then ['\\', c]
    else if c = Char.ofNat 8 then ['\\', 'b']
    else if c = Char.ofNat 12 then ['\\', 'f']
    else if c = '\n' then ['\\', 'n']
    else if c = '\r' then ['\\', 'r']
    else if c = '\t' then ['\\', 't']
    else ['\\', 'u', '0', '0', hex (c.toNat / 16), hex (c.toNat % 16)]
  else if c.toNat = 0x2028 ∨ c.toNat = 0x2029 then
    ['\\', 'u', '2', '0', '2', hex (c.toNat % 16)]
  else [c]

/-- `appendString` of encoding/json: the JSON string literal for `src`. -/
def appendString (src : GoString) : GoString :=
  '"' :: (src.flatMap appendChar ++ ['"'])

mutual
/-- The encoder of encoding/json (`reflectValue`), by kind. -/
def marshalValue : GoValue → Except MarshalError GoString
  | .string s => .ok (appendString s)
  | .bool b => .ok (if b then "true".toList else "false".toList)
  | .int n => .ok (toString n).toList
  | .struct fields =>
    match marshalFields true fields with
    | .ok body => .ok ('{' :: (body ++ ['}']))
    | .error e => .error e
  | .chan => .error (.UnsupportedTypeError "chan".toList)
  | .func => .error (.UnsupportedTypeError "func".toList)
  | .complex => .error (.UnsupportedTypeError "complex128".toList)
/-- The loop of `structEncoder.encode`: each field as `"name":value`, a
comma before every field but the first. -/
def marshalFields : Bool → List (GoString × GoValue) → Except MarshalError GoString
  | _, [] => .ok []
  | first, (name, v) :: rest =>
    match marshalValue v with
    | .error e => .error e
    | .ok enc =>
      match marshalFields false rest with
      | .error e => .error e
      | .ok tail =>
        .ok ((if first then [] else [',']) ++ ('"' :: (name ++ ['"', ':'])) ++ enc ++ tail)
end

/-- `json.Marshal`. -/
def Marshal (v : GoValue) : Except MarshalError GoString :=
  marshalValue v

/-! ## `main.go`: the `Response` type -/

/-- `type Response struct` of main.go. -/
structure Response where
  Status : GoString
  Version : GoString
deriving DecidableEq, Repr

/-- What reflection shows the encoder of a `Response`: its two exported
fields in declaration order under the keys of their `json` tags. -/
def Response.toValue (r : Response) : GoValue :=
  .struct [("status".toList, .string r.Status), ("version".toList, .string r.Version)]

/-! ## `net/http`: headers and the response writer -/

/-- `validHeaderFieldByte` of net/textproto: the token characters of RFC 7230
(letters, digits and fifteen punctuation marks, given by code). -/
def validHeaderFieldByte (c : Char) : Bool :=
  ('a' ≤ c && c ≤ 'z') || ('A' ≤ c && c ≤ 'Z') || ('0' ≤ c && c ≤ '9') ||
    [33, 35, 36, 37, 38, 39, 42, 43, 45, 46, 94, 95, 96, 124, 126].contains c.toNat

/-- The second loop of `canonicalMIMEHeaderKey`: upper case for the first
letter and for a letter after a dash, lower case for the others. -/
def canonicalLoop : Bool → GoString → GoString
  | _, [] => []
  | upper, c :: cs =>
    let c' : Char :=
      if upper && ('a' ≤ c && c ≤ 'z') then Char.ofNat (c.toNat - 32)
      else if !upper && ('A' ≤ c && c ≤ 'Z') then Char.ofNat (c.toNat + 32)
      else c
    c' :: canonicalLoop (c' = '-') cs

/-- `textproto.CanonicalMIMEHeaderKey`: a key of token characters only is
put in canonical case, any other key is returned unchanged. -/
def CanonicalMIMEHeaderKey (s : GoString) : GoString :=
  if s.all validHeaderFieldByte then canonicalLoop true s else s

/-- `http.Header`, a `map[string][]string`, as the list of its entries. -/
structure Header where
  entries : List (GoString × List GoString)
deriving DecidableEq, Repr

/-- The empty header map. -/
def Header.empty : Header := ⟨[]⟩

/-- `Header.Values`: the values stored under the canonical form of `key`. -/
def Header.Values (h : Header) (key : GoString) : List GoString :=
  match h.entries.lookup (CanonicalMIMEHeaderKey key) with
  | some vs => vs
  | none => []

/-- `Header.Set`: the entry of the canonical key is replaced by the single
value `value`. -/
def Header.Set (h : Header) (key value : GoString) : Header :=
  let k := CanonicalMIMEHeaderKey key
  ⟨(k, [value]) :: h.entries.filter (fun e => e.1 ≠ k)⟩

/-- `Header.Del`. -/
def Header.Del (h : Header) (key : GoString) : Header :=
  let k := CanonicalMIMEHeaderKey key
  ⟨h.entries.filter (fun e => e.1 ≠ k)⟩

/-- Status codes of net/http used here. -/
def StatusOK : Nat := 200
def StatusMovedPermanently : Nat := 301
def StatusBadRequest : Nat := 400
def StatusNotFound : Nat := 404

/-- The `http.ResponseWriter` a handler is given (`response` of net/http):
the method of the request it answers (`req.Method`), the header map the
handler edits (`Header()`), whether the header has been written and with
which status code, the header map as it was frozen then, the body bytes the
handler has written so far, and the body bytes the server has put on the
connection, which for a `HEAD` request stay none. -/
structure ResponseWriter where
  reqMethod : GoString
  handlerHeader : Header
  wroteHeader : Bool
  status : Nat
  sentHeader : Header
  body : GoString
  sent : GoString
deriving DecidableEq, Repr

/-- The writer of a `GET` request that has not been answered yet. -/
def ResponseWriter.fresh : ResponseWriter :=
  { reqMethod := "GET".toList, handlerHeader := Header.empty, wroteHeader := false,
    status := 0, sentHeader := Header.empty, body := [], sent := [] }

/-- The statement `w.Header().Set(key, value)`. -/
def ResponseWriter.HeaderSet (w : ResponseWriter) (key value : GoString) : ResponseWriter :=
  { w with handlerHeader := w.handlerHeader.Set key value }

/-- `response.WriteHeader` for a final status code: the first call fixes
the status code and freezes a copy of the header map; a later call is
superfluous and changes nothing. -/
def ResponseWriter.WriteHeader (w : ResponseWriter) (code : Nat) : ResponseWriter :=
  if w.wroteHeader then w
  else { w with wroteHeader := true, status := code, sentHeader := w.handlerHeader }

/-- `bodyAllowedForStatus` of net/http. -/
def bodyAllowedForStatus (status : Nat) : Bool :=
  if 100 ≤ status ∧ status ≤ 199 then false
  else if status = 204 then false
  else if status = 304 then false
  else true

/-- Errors of `ResponseWriter.Write`. -/
inductive WriteError where
  | ErrBodyNotAllowed
deriving DecidableEq, Repr

/-- `response.Write` down to `chunkWriter.Write`: a write before
`WriteHeader` writes the header with status 200 first; when the status allows
a body the data counts as written, and it goes out to the client unless the
request is a `HEAD`, whose writes the server eats. -/
def ResponseWriter.Write (w : ResponseWriter) (data : GoString) :
    ResponseWriter × Option WriteError :=
  let w1 := if w.wroteHeader then w else w.WriteHeader StatusOK
  if data.length = 0 then (w1, none)
  else if !bodyAllowedForStatus w1.status then (w1, some .ErrBodyNotAllowed)
  else
    ({ w1 with
        body := w1.body ++ data,
        sent := if w1.reqMethod = "HEAD".toList then w1.sent else w1.sent ++ data }, none)

/-- The error `Encoder.Encode` returns: from encoding the value or from
writing the encoding. -/
inductive EncodeError where
  | marshal (e : MarshalError)
  | write (e : WriteError)
deriving DecidableEq, Repr

/-- `json.NewEncoder(w).Encode(v)`: the value is encoded, the encoding is
terminated with a newline, and the whole is written to `w` in one `Write`.
When the value cannot be encoded nothing is written. -/
def Encode (w : ResponseWriter) (v : GoValue) : ResponseWriter × Option EncodeError :=
  match Marshal v with
  | .error e => (w, some (.marshal e))
  | .ok b =>
    match w.Write (b ++ ['\n']) with
    | (w', some e) => (w', some (.write e))
    | (w', none) => (w', none)

/-- `http.Request`, the parts a handler or the route table can read: the
method, the `Host`, the path and the query of the URL, the headers and the
body.  A request with the asterisk target (`RequestURI == "*"`) is the one
whose path is `*`. -/
structure Request where
  Method : GoString
  Host : GoString
  Path : GoString
  RawQuery : GoString
  Header : Header
  Body : GoString
deriving DecidableEq, Repr

/-- The writer the server makes for the request `r` (`conn.readRequest`):
nothing written yet, and the method of `r` kept. -/
def newResponse (r : Request) : ResponseWriter :=
  { ResponseWriter.fresh with reqMethod := r.Method }

/-! ## `main.go`: the handler -/

/-- The value the handler serves: `Response{Status: "secure", Version: "1.0.0"}`. -/
def resp : Response :=
  { Status := "secure".toList, Version := "1.0.0".toList }

/-- The handler's first two statements: `resp := Response{...}` needs no
state, `w.Header().Set("Content-Type", "application/json")` edits the header. -/
def handlerSetHeader (w : ResponseWriter) : ResponseWriter :=
  w.HeaderSet "Content-Type".toList "application/json".toList

/-- The handler's last statement, `json.NewEncoder(w).Encode(resp)`, with the
error it returns. -/
def handlerEncode (w : ResponseWriter) : ResponseWriter × Option EncodeError :=
  Encode w resp.toValue

/-- The function literal registered for `/` in main.go.  The request `r` is
never read, and the error of `Encode` is dropped. -/
def handler (w : ResponseWriter) (_r : Request) : ResponseWriter :=
  (handlerEncode (handlerSetHeader w)).1

/-! ## `path.Clean` and `cleanPath` of net/http -/

/-- `lazybuf` of package path: the output buffer and its write index `w`. -/
structure lazybuf where
  buf : GoString
  w : Nat
deriving DecidableEq, Repr

/-- `lazybuf.index`. -/
def lazybuf.index (b : lazybuf) (i : Nat) : Char :=
  b.buf.getD i (Char.ofNat 0)

/-- `lazybuf.append`: `c` is stored at index `w`, and `w` advances. -/
def lazybuf.append (b : lazybuf) (c : Char) : lazybuf :=
  { buf := b.buf.take b.w ++ [c], w := b.w + 1 }

/-- `lazybuf.string`: the first `w` bytes. -/
def lazybuf.string (b : lazybuf) : GoString :=
  b.buf.take b.w

/-- The inner loop of `path.Clean` on `..`:
`for out.w > dotdot && out.index(out.w) != '/' { out.w-- }`. -/
def backtrack (dotdot : Nat) : Nat → lazybuf → lazybuf
  | 0, out => out
  | fuel + 1, out =>
    if out.w > dotdot ∧ out.index out.w ≠ '/' then
      backtrack dotdot fuel { out with w := out.w - 1 }
    else out

/-- The inner loop of `path.Clean` on a path element:
`for ; r < n && path[r] != '/'; r++ { out.append(path[r]) }`. -/
def copyElement (path : GoString) : Nat → Nat → lazybuf → Nat × lazybuf
  | 0, r, out => (r, out)
  | fuel + 1, r, out =>
    if r < path.length ∧ path.getD r '/' ≠ '/' then
      copyElement path fuel (r + 1) (out.append (path.getD r '/'))
    else (r, out)

/-- The main loop `for r < n` of `path.Clean`. -/
def cleanLoop (path : GoString) (rooted : Bool) : Nat → Nat → Nat → lazybuf → lazybuf
  | 0, _, _, out => out
  | fuel + 1, r, dotdot, out =>
    let n := path.length
    if r < n then
      if path.getD r '/' = '/' then
        cleanLoop path rooted fuel (r + 1) dotdot out
      else if path.getD r '/' = '.' ∧ (r + 1 = n ∨ path.getD (r + 1) '.' = '/') then
        cleanLoop path rooted fuel (r + 1) dotdot out
      else if path.getD r '/' = '.' ∧ path.getD (r + 1) '/' = '.' ∧
          (r + 2 = n ∨ path.getD (r + 2) '.' = '/') then
        if out.w > dotdot then
          cleanLoop path rooted fuel (r + 2) dotdot
            (backtrack dotdot out.w { out with w := out.w - 1 })
        else if !rooted then
          let out1 := if out.w > 0 then out.append '/' else out
          let out2 := (out1.append '.').append '.'
          cleanLoop path rooted fuel (r + 2) out2.w out2
        else cleanLoop path rooted fuel (r + 2) dotdot out
      else
        let out1 :=
          if (rooted ∧ out.w ≠ 1) ∨ (!rooted ∧ out.w ≠ 0) then out.append '/' else out
        let (r1, out2) := copyElement path n r out1
        cleanLoop path rooted fuel r1 dotdot out2
    else out

/-- `path.Clean`: the shortest path equivalent to `path` by purely lexical
processing. -/
def Clean (path : GoString) : GoString :=
  if path = [] then ['.']
  else
    let rooted : Bool := path.head? = some '/'
    let out0 : lazybuf := { buf := path, w := 0 }
    let out := if rooted then out0.append '/' else out0
    let start := if rooted then 1 else 0
    let final := cleanLoop path rooted (path.length + 1) start start out
    if final.w = 0 then ['.'] else final.string

/-- `cleanPath` of net/http: the canonical path for `p`, without `.` and
`..` elements and doubled slashes, rooted, a trailing slash kept. -/
def cleanPath (p0 : GoString) : GoString :=
  if p0 = [] then ['/']
  else
    let p := if p0.head? ≠ some '/' then '/' :: p0 else p0
    let np := Clean p
    if p.getLast? = some '/' ∧ np ≠ ['/'] then
      if p.length = np.length + 1 ∧ np.isPrefixOf p then p else np ++ ['/']
    else np

/-! ## `net/http`: the route table -/

/-- `http.HandlerFunc`: what a handler does to the writer it is given. -/
abbrev HandlerFunc := ResponseWriter → Request → ResponseWriter

/-- `muxEntry` of net/http. -/
structure muxEntry where
  h : HandlerFunc
  pattern : GoString

/-- `http.ServeMux` for path patterns: the map `m` of the registered
patterns and the slice `es` of the patterns ending in a slash, longest first.
Patterns that name a host, a method or a wildcard are not covered; the
program registers none, and for its one pattern `/` the route table of Go 1.22
and later dispatches as this one does. -/
structure ServeMux where
  m : List muxEntry
  es : List muxEntry

/-- `http.DefaultServeMux` at program start: nothing registered. -/
def DefaultServeMux : ServeMux := { m := [], es := [] }

/-- `appendSorted` of net/http: `e` goes before the first entry whose pattern
is shorter. -/
def appendSorted : List muxEntry → muxEntry → List muxEntry
  | [], e => [e]
  | x :: xs, e =>
    if x.pattern.length < e.pattern.length then e :: x :: xs
    else x :: appendSorted xs e

/-- The lookup `mux.m[pattern]`. -/
def ServeMux.lookup (mux : ServeMux) (pattern : GoString) : Option muxEntry :=
  mux.m.find? (fun e => e.pattern = pattern)

/-- `ServeMux.HandleFunc` (through `ServeMux.Handle`): `none` where Go panics,
on the empty pattern and on a pattern registered before. -/
def ServeMux.HandleFunc (mux : ServeMux) (pattern : GoString) (handler : HandlerFunc) :
    Option ServeMux :=
  if pattern = [] then none
  else if (mux.lookup pattern).isSome then none
  else
    let e : muxEntry := { h := handler, pattern := pattern }
    some { m := e :: mux.m,
           es := if pattern.getLast? = some '/' then appendSorted mux.es e else mux.es }

/-- `ServeMux.match`: an exact match first, otherwise the longest registered
pattern ending in a slash that is a prefix of the path. -/
def ServeMux.match (mux : ServeMux) (path : GoString) : Option muxEntry :=
  match mux.lookup path with
  | some e => some e
  | none => mux.es.find? (fun e => e.pattern.isPrefixOf path)

/-- `ServeMux.shouldRedirectRLocked`: the path is not registered but the path
with a slash appended is. -/
def ServeMux.shouldRedirectRLocked (mux : ServeMux) (path : GoString) : Bool :=
  if (mux.lookup path).isSome then false
  else if path.length = 0 then false
  else if (mux.lookup (path ++ ['/'])).isSome then path.getLast? ≠ some '/'
  else false

/-- What `ServeMux.Handler` returns for a request: a registered handler with
its pattern, the handler `RedirectHandler(u.String(), StatusMovedPermanently)`
for the URL `u` of a path and a query, or the not-found handler. -/
inductive Dispatch where
  | found (h : HandlerFunc) (pattern : GoString)
  | redirect (path : GoString) (rawQuery : GoString)
  | notFound

/-- `ServeMux.handler`: the matching entry, or `NotFoundHandler()`. -/
def ServeMux.handler (mux : ServeMux) (path : GoString) : Dispatch :=
  match mux.match path with
  | some e => .found e.h e.pattern
  | none => .notFound

/-- `ServeMux.Handler`: `CONNECT` requests are looked up as they are; for any
other request the path is cleaned first, and a path that changes by cleaning
is answered with a redirect to the cleaned path. -/
def ServeMux.Handler (mux : ServeMux) (r : Request) : Dispatch :=
  if r.Method = "CONNECT".toList then
    if mux.shouldRedirectRLocked r.Path then .redirect (r.Path ++ ['/']) r.RawQuery
    else mux.handler r.Path
  else
    let path := cleanPath r.Path
    if mux.shouldRedirectRLocked path then .redirect (path ++ ['/']) r.RawQuery
    else if path ≠ r.Path then .redirect path r.RawQuery
    else mux.handler r.Path

/-- `http.Error`: the plain-text error reply. -/
def Error (w : ResponseWriter) (error : GoString) (code : Nat) : ResponseWriter :=
  let w1 := { w with handlerHeader := w.handlerHeader.Del "Content-Length".toList }
  let w2 := w1.HeaderSet "Content-Type".toList "text/plain; charset=utf-8".toList
  let w3 := w2.HeaderSet "X-Content-Type-Options".toList "nosniff".toList
  ((w3.WriteHeader code).Write (error ++ ['\n'])).1

/-- `http.NotFound`, the platform's reply where no pattern matches. -/
def NotFound (w : ResponseWriter) (_r : Request) : ResponseWriter :=
  Error w "404 page not found".toList StatusNotFound

/-! ## `net/url` and `http.Redirect` -/

/-- The bytes of the UTF-8 encoding of a character. -/
def utf8Bytes (c : Char) : List Nat :=
  let n := c.toNat
  if n < 0x80 then [n]
  else if n < 0x800 then [0xC0 + n / 64, 0x80 + n % 64]
  else if n < 0x10000 then [0xE0 + n / 4096, 0x80 + n / 64 % 64, 0x80 + n % 64]
  else [0xF0 + n / 262144, 0x80 + n / 4096 % 64, 0x80 + n / 64 % 64, 0x80 + n % 64]

/-- `const upperhex = "0123456789ABCDEF"` of net/url, indexed. -/
def upperhex (n : Nat) : Char :=
  "0123456789ABCDEF".toList.getD n '0'

/-- A byte as `%XX`, the way `escape` of net/url writes it. -/
def percentUpper (b : Nat) : GoString :=
  ['%', upperhex (b / 16), upperhex (b % 16)]

/-- Whether `c` is an ASCII letter or digit. -/
def isAlnum (c : Char) : Bool :=
  ('a' ≤ c && c ≤ 'z') || ('A' ≤ c && c ≤ 'Z') || ('0' ≤ c && c ≤ '9')

/-- `shouldEscape(c, encodePath)` of net/url for an ASCII character: letters,
digits and `-_.~` stay, of the reserved characters only `?` is escaped, and
everything else is escaped. -/
def shouldEscapePath (c : Char) : Bool :=
  if isAlnum c then false
  else if c = '-' || c = '_' || c = '.' || c = '~' then false
  else if c = '$' || c = '&' || c = '+' || c = ',' || c = '/' || c = ':' || c = ';' ||
      c = '=' || c = '?' || c = '@' then c = '?'
  else true

/-- `escape(s, encodePath)` of net/url, byte by byte. -/
def escapePath (s : GoString) : GoString :=
  s.flatMap (fun c =>
    if c.toNat < 0x80 then (if shouldEscapePath c then percentUpper c.toNat else [c])
    else (utf8Bytes c).flatMap percentUpper)

/-- The method `String` of the `url.URL` that has the path `path` and the
query `rawQuery` and nothing else: the escaped path, after `./` when its first
segment holds a colon, and the query after `?`. -/
def URLString (path rawQuery : GoString) : GoString :=
  let escaped := if path = ['*'] then ['*'] else escapePath path
  let dot : GoString :=
    if (escaped.takeWhile (fun c => c ≠ '/')).contains ':' then ['.', '/'] else []
  dot ++ escaped ++ (if rawQuery = [] then [] else '?' :: rawQuery)

/-- `stringContainsCTLByte` of net/url, for one byte. -/
def isCTL (c : Char) : Bool :=
  c.toNat < 0x20 || c.toNat = 0x7f

/-- `getScheme` of net/url from index `i` on: `none` for the error of a
colon at the start, else the scheme (empty when there is none) and the rest. -/
def getScheme (rawURL : GoString) : Nat → GoString → Option (GoString × GoString)
  | _, [] => some ([], rawURL)
  | i, c :: cs =>
    if ('a' ≤ c && c ≤ 'z') || ('A' ≤ c && c ≤ 'Z') then getScheme rawURL (i + 1) cs
    else if ('0' ≤ c && c ≤ '9') || c = '+' || c = '-' || c = '.' then
      if i = 0 then some ([], rawURL) else getScheme rawURL (i + 1) cs
    else if c = ':' then
      if i = 0 then none else some (rawURL.take i, cs)
    else some ([], rawURL)

/-- `ishex` of net/url. -/
def ishex (c : Char) : Bool :=
  ('0' ≤ c && c ≤ '9') || ('a' ≤ c && c ≤ 'f') || ('A' ≤ c && c ≤ 'F')

/-- Whether `unescape` of net/url accepts `s` as a path, a fragment or user
information: every `%` is followed by two hexadecimal digits. -/
def validPercent : Nat → GoString → Bool
  | 0, _ => true
  | _ + 1, [] => true
  | fuel + 1, c :: cs =>
    if c = '%' then
      match cs with
      | a :: b :: rest => ishex a && ishex b && validPercent fuel rest
      | _ => false
    else validPercent fuel cs

/-- `validUserinfo` of net/url. -/
def validUserinfo (s : GoString) : Bool :=
  s.all (fun c => isAlnum c ||
    [45, 46, 95, 58, 126, 33, 36, 38, 39, 40, 41, 42, 43, 44, 59, 61, 37, 64].contains c.toNat)

/-- Whether `parseAuthority` of net/url accepts `authority` and finds the
empty host in it: nothing after the last `@`, and before it, if there is one,
valid user information. -/
def authorityHostEmpty (authority : GoString) : Bool :=
  if authority.contains '@' then
    let host := (authority.reverse.takeWhile (fun c => c ≠ '@')).reverse
    let userinfo := authority.take (authority.length - host.length - 1)
    host = [] && validUserinfo userinfo &&
      validPercent userinfo.length (userinfo.takeWhile (fun c => c ≠ ':')) &&
      validPercent userinfo.length ((userinfo.dropWhile (fun c => c ≠ ':')).drop 1)
  else authority = []

/-- Whether `url.Parse(rawURL)` succeeds with an empty scheme and an empty
host, the case in which `http.Redirect` takes `rawURL` for a relative
reference. -/
def parsesAsRelative (rawURL : GoString) : Bool :=
  let u := rawURL.takeWhile (fun c => c ≠ '#')
  let frag := (rawURL.dropWhile (fun c => c ≠ '#')).drop 1
  if u.any isCTL then false
  else if u = ['*'] then validPercent frag.length frag
  else
    match getScheme u 0 u with
    | none => false
    | some (scheme, rest0) =>
      if scheme ≠ [] then false
      else
        let rest :=
          if rest0.getLast? = some '?' ∧ rest0.count '?' = 1 then rest0.dropLast
          else rest0.takeWhile (fun c => c ≠ '?')
        if rest.head? ≠ some '/' ∧ (rest.takeWhile (fun c => c ≠ '/')).contains ':' then false
        else if "//".toList.isPrefixOf rest ∧ ¬ "///".toList.isPrefixOf rest then
          let after := rest.drop 2
          authorityHostEmpty (after.takeWhile (fun c => c ≠ '/')) &&
            validPercent after.length (after.dropWhile (fun c => c ≠ '/')) &&
            validPercent frag.length frag
        else validPercent rest.length rest && validPercent frag.length frag

/-- `hexEscapeNonASCII` of net/http: every byte outside ASCII as `%xx`. -/
def hexEscapeNonASCII (s : GoString) : GoString :=
  s.flatMap (fun c =>
    if c.toNat < 0x80 then [c]
    else (utf8Bytes c).flatMap (fun b => ['%', hex (b / 16), hex (b % 16)]))

/-- `htmlEscape` of net/http: the five characters `&`, `<`, `>`, the double
quote and the single quote as character references. -/
def htmlEscape (s : GoString) : GoString :=
  s.flatMap (fun c =>
    if c = '&' then "&amp;".toList
    else if c = '<' then "&lt;".toList
    else if c = '>' then "&gt;".toList
    else if c = '"' then "&#34;".toList
    else if c.toNat = 39 then "&#39;".toList
    else [c])

/-- The directory of `path.Split`: the path up to and with its last slash. -/
def splitDir (p : GoString) : GoString :=
  (p.reverse.dropWhile (fun c => c ≠ '/')).reverse

/-- `http.Redirect(w, r, url, StatusMovedPermanently)`, which is what the
handler `RedirectHandler(url, StatusMovedPermanently)` of the route table
calls.  A relative `url` is made absolute against the path of the request and
cleaned, a trailing slash kept; `Location` is set to it; a `GET` or `HEAD`
without a `Content-Type` set gets one; the header is written with status 301;
and a `GET` gets the short HTML body. -/
def Redirect (w : ResponseWriter) (r : Request) (url : GoString) : ResponseWriter :=
  let url1 : GoString :=
    if parsesAsRelative url then
      let oldpath := if r.Path = [] then ['/'] else r.Path
      let abs := if url.head? ≠ some '/' then splitDir oldpath ++ url else url
      let p := abs.takeWhile (fun c => c ≠ '?')
      let query := abs.dropWhile (fun c => c ≠ '?')
      let cleaned := Clean p
      let cleaned1 :=
        if p.getLast? = some '/' ∧ cleaned.getLast? ≠ some '/' then cleaned ++ ['/']
        else cleaned
      cleaned1 ++ query
    else url
  let hadCT := (w.handlerHeader.entries.lookup "Content-Type".toList).isSome
  let w1 := w.HeaderSet "Location".toList (hexEscapeNonASCII url1)
  let w2 :=
    if !hadCT ∧ (r.Method = "GET".toList ∨ r.Method = "HEAD".toList) then
      w1.HeaderSet "Content-Type".toList "text/html; charset=utf-8".toList
    else w1
  let w3 := w2.WriteHeader StatusMovedPermanently
  if !hadCT ∧ r.Method = "GET".toList then
    (w3.Write ("<a href=\"".toList ++ htmlEscape url1 ++ "\">".toList ++
      "Moved Permanently".toList ++ "</a>.\n".toList ++ ['\n'])).1
  else w3

/-- `ServeMux.ServeHTTP`: the asterisk request is refused with 400 (and
`Connection: close`, as for HTTP/1.1), any other request goes to the handler
that `Handler` returns. -/
def ServeMux.ServeHTTP (mux : ServeMux) (w : ResponseWriter) (r : Request) : ResponseWriter :=
  if r.Path = ['*'] then
    (w.HeaderSet "Connection".toList "close".toList).WriteHeader StatusBadRequest
  else
    match mux.Handler r with
    | .found h _ => h w r
    | .redirect path q => Redirect w r (URLString path q)
    | .notFound => NotFound w r

/-- The end of `conn.serve` for one request (`finishRequest`): a handler that
returned without writing gets the header written with status 200. -/
def finishRequest (w : ResponseWriter) : ResponseWriter :=
  if w.wroteHeader then w else w.WriteHeader StatusOK

/-- One request served by a server whose handler is `nil`
(`serverHandler.ServeHTTP`): `OPTIONS *` is answered by the server itself
with an empty 200, every other request by the route table `mux`. -/
def serve (mux : ServeMux) (r : Request) : ResponseWriter :=
  if r.Path = ['*'] ∧ r.Method = "OPTIONS".toList then
    finishRequest ((newResponse r).HeaderSet "Content-Length".toList "0".toList)
  else finishRequest (mux.ServeHTTP (newResponse r) r)

/-! ## `main.go`: `main` and what it does to the world -/

/-- What the operating system lets `ListenAndServe` do on an address: the
socket cannot be bound (the call returns the error at once), or the server
accepts and answers the requests of `requests` in turn and then either goes
on waiting (`err = none`, the call has not returned) or fails to accept and
returns `err`. -/
inductive ListenBehaviour where
  | bindFails (err : GoString)
  | serves (requests : List Request) (err : Option GoString)

/-- Everything outside the program that a run could depend on: the command
line, the environment variables, and what listening on an address does. -/
structure World where
  args : List GoString
  environ : List (GoString × GoString)
  listen : GoString → ListenBehaviour

/-- The observable actions of a run, in program order. -/
inductive Event where
  | HandleFunc (pattern : GoString)
  | Log (line : GoString)
  | Listen (addr : GoString) (routes : List GoString)
  | Served (r : Request) (w : ResponseWriter)
  | Exit (code : Nat)
  | Panic
deriving DecidableEq, Repr

/-- A run of the program: its actions, and the exit status once the process
has ended (`none` while it is still serving). -/
structure Run where
  events : List Event
  exit : Option Nat
deriving DecidableEq, Repr

/-- `http.ListenAndServe(addr, nil)`: the server listens on `addr` and
answers with `http.DefaultServeMux`, here `mux`.  The result is the actions
taken and the error returned, `none` when the call does not return. -/
def ListenAndServe (world : World) (mux : ServeMux) (addr : GoString) :
    List Event × Option GoString :=
  match world.listen addr with
  | .bindFails err => ([.Listen addr (mux.m.map (·.pattern))], some err)
  | .serves requests err =>
    (.Listen addr (mux.m.map (·.pattern)) :: requests.map (fun r => .Served r (serve mux r)),
      err)

/-- `log.Fatal(err)`: the error is printed to the log and the process exits
with status 1. -/
def logFatal (err : GoString) : List Event × Nat :=
  ([.Log err], 1)

/-- `func main()` of main.go. -/
def main (world : World) : Run :=
  match DefaultServeMux.HandleFunc "/".toList handler with
  | none => { events := [.Panic], exit := some 2 }
  | some mux =>
    let started : List Event :=
      [.HandleFunc "/".toList, .Log "Server starting on :8080...".toList]
    match ListenAndServe world mux ":8080".toList with
    | (evs, some err) =>
      let (fatal, code) := logFatal err
      { events := started ++ evs ++ fatal ++ [.Exit code], exit := some code }
    | (evs, none) => { events := started ++ evs, exit := none }

/-- The route table `main` hands to the server: `DefaultServeMux` after the
one `HandleFunc` call. -/
def mainMux : ServeMux :=
  (DefaultServeMux.HandleFunc "/".toList handler).getD DefaultServeMux

/-- Whether an event is a route registration. -/
def Event.isHandleFunc : Event → Bool
  | .HandleFunc _ => true
  | _ => false

/-- Whether an event is a call of `ListenAndServe`. -/
def Event.isListen : Event → Bool
  | .Listen _ _ => true
  | _ => false

/-- Whether an event is a request answered. -/
def Event.isServed : Event → Bool
  | .Served _ _ => true
  | _ => false

/-- A world in which the port is taken: binding `:8080` fails. -/
def busyWorld : World :=
  { args := ["server".toList], environ := [("PORT".toList, "9090".toList)],
    listen := fun _ => .bindFails "listen tcp :8080: bind: address already in use".toList }

/-! ## `encoding/json`: decoding -/

/-- A JSON text as a value (RFC 8259); a number keeps its digits. -/
inductive JSON where
  | null
  | bool (b : Bool)
  | number (digits : GoString)
  | string (s : GoString)
  | array (items : List JSON)
  | object (members : List (GoString × JSON))

/-- The white space of JSON: space, tab, line feed, carriage return. -/
def isSpace (c : Char) : Bool :=
  c = ' ' || c = '\t' || c = '\n' || c = '\r'

/-- The input without its leading white space. -/
def skipSpace : GoString → GoString
  | [] => []
  | c :: cs => if isSpace c then skipSpace cs else c :: cs

/-- The value of a hexadecimal digit. -/
def hexVal (c : Char) : Option Nat :=
  if '0' ≤ c ∧ c ≤ '9' then some (c.toNat - 48)
  else if 'a' ≤ c ∧ c ≤ 'f' then some (c.toNat - 87)
  else if 'A' ≤ c ∧ c ≤ 'F' then some (c.toNat - 55)
  else none

/-- `getu4` of encoding/json: the code unit of the four hexadecimal digits
after `\u`, and the rest of the input. -/
def getu4 : GoString → Option (Nat × GoString)
  | a :: b :: c :: d :: rest =>
    match hexVal a, hexVal b, hexVal c, hexVal d with
    | some x, some y, some z, some t => some (((x * 16 + y) * 16 + z) * 16 + t, rest)
    | _, _, _, _ => none
  | _ => none

/-- The character of a `\u` escape as `unquote` of encoding/json reads it:
a high surrogate followed by the escape of a low one is the character of the
pair, a surrogate alone is U+FFFD. -/
def unquoteU (u : Nat) (rest : GoString) : Char × GoString :=
  if 0xD800 ≤ u ∧ u < 0xE000 then
    match rest with
    | '\\' :: 'u' :: rest1 =>
      match getu4 rest1 with
      | some (u1, rest2) =>
        if u < 0xDC00 ∧ 0xDC00 ≤ u1 ∧ u1 < 0xE000 then
          (Char.ofNat ((u - 0xD800) * 0x400 + (u1 - 0xDC00) + 0x10000), rest2)
        else (Char.ofNat 0xFFFD, rest)
      | none => (Char.ofNat 0xFFFD, rest)
    | _ => (Char.ofNat 0xFFFD, rest)
  else (Char.ofNat u, rest)

/-- A string literal after its opening quote: the text up to the closing
quote with the escapes resolved, and the input after the quote.  A control
character and an unknown escape are syntax errors. -/
def parseString : Nat → GoString → Option (GoString × GoString)
  | 0, _ => none
  | _ + 1, [] => none
  | fuel + 1, c :: cs =>
    if c = '"' then some ([], cs)
    else if c = '\\' then
      match cs with
      | [] => none
      | e :: rest =>
        if e = 'u' then
          match getu4 rest with
          | none => none
          | some (u, rest1) =>
            let (ch, rest2) := unquoteU u rest1
            (parseString fuel rest2).map (fun p => (ch :: p.1, p.2))
        else
          let simple : Option Char :=
            if e = '"' ∨ e = '\\' ∨ e = '/' then some e
            else if e = 'b' then some (Char.ofNat 8)
            else if e = 'f' then some (Char.ofNat 12)
            else if e = 'n' then some '\n'
            else if e = 'r' then some '\r'
            else if e = 't' then some '\t'
            else none
          match simple with
          | none => none
          | some ch => (parseString fuel rest).map (fun p => (ch :: p.1, p.2))
    else if c.toNat < 0x20 then none
    else (parseString fuel cs).map (fun p => (c :: p.1, p.2))

/-- The decimal digits at the head of the input, and the rest. -/
def spanDigits : GoString → GoString × GoString
  | [] => ([], [])
  | c :: cs =>
    if '0' ≤ c ∧ c ≤ '9' then ((spanDigits cs).map (c :: ·) id) else ([], c :: cs)

/-- A number by the grammar of RFC 8259: an optional minus, an integer part
without a leading zero, an optional fraction, an optional exponent. -/
def parseNumber (s : GoString) : Option (GoString × GoString) :=
  let (sign, s1) := match s with
    | '-' :: t => (['-'], t)
    | _ => ([], s)
  let (int, s2) := spanDigits s1
  if int = [] ∨ (int.head? = some '0' ∧ int.length ≠ 1) then none
  else
    let frac : Option (GoString × GoString) :=
      match s2 with
      | '.' :: t =>
        let (ds, t1) := spanDigits t
        if ds = [] then none else some ('.' :: ds, t1)
      | _ => some ([], s2)
    match frac with
    | none => none
    | some (fr, s3) =>
      let exp : Option (GoString × GoString) :=
        match s3 with
        | e :: t =>
          if e = 'e' ∨ e = 'E' then
            let (sg, t1) := match t with
              | '+' :: u => (['+'], u)
              | '-' :: u => (['-'], u)
              | _ => ([], t)
            let (ds, t2) := spanDigits t1
            if ds = [] then none else some (e :: (sg ++ ds), t2)
          else some ([], s3)
        | [] => some ([], s3)
      match exp with
      | none => none
      | some (ex, s4) => some (sign ++ int ++ fr ++ ex, s4)

/-- The input after the literal `lit`, when the input begins with it. -/
def stripLiteral (lit : GoString) (s : GoString) : Option GoString :=
  if lit.isPrefixOf s then some (s.drop lit.length) else none

mutual
/-- One JSON value at the head of the input (no leading white space), and
the rest of the input. -/
def parseValue : Nat → GoString → Option (JSON × GoString)
  | 0, _ => none
  | _ + 1, [] => none
  | fuel + 1, c :: cs =>
    if c = '{' then
      match skipSpace cs with
      | '}' :: rest => some (.object [], rest)
      | s => (parseMembers fuel s).map (fun p => (.object p.1, p.2))
    else if c = '[' then
      match skipSpace cs with
      | ']' :: rest => some (.array [], rest)
      | s => (parseElements fuel s).map (fun p => (.array p.1, p.2))
    else if c = '"' then
      (parseString (cs.length + 1) cs).map (fun p => (.string p.1, p.2))
    else if c = 't' then (stripLiteral "rue".toList cs).map (fun r => (.bool true, r))
    else if c = 'f' then (stripLiteral "alse".toList cs).map (fun r => (.bool false, r))
    else if c = 'n' then (stripLiteral "ull".toList cs).map (fun r => (.null, r))
    else (parseNumber (c :: cs)).map (fun p => (.number p.1, p.2))
/-- The members of an object after its opening brace, up to the closing one:
`"key" : value` separated by commas. -/
def parseMembers : Nat → GoString → Option (List (GoString × JSON) × GoString)
  | 0, _ => none
  | fuel + 1, s =>
    match s with
    | '"' :: s1 =>
      match parseString (s1.length + 1) s1 with
      | none => none
      | some (key, s2) =>
        match skipSpace s2 with
        | ':' :: s3 =>
          match parseValue fuel (skipSpace s3) with
          | none => none
          | some (v, s4) =>
            match skipSpace s4 with
            | '}' :: rest => some ([(key, v)], rest)
            | ',' :: s5 =>
              (parseMembers fuel (skipSpace s5)).map (fun p => ((key, v) :: p.1, p.2))
            | _ => none
        | _ => none
    | _ => none
/-- The elements of an array after its opening bracket, up to the closing
one, separated by commas. -/
def parseElements : Nat → GoString → Option (List JSON × GoString)
  | 0, _ => none
  | fuel + 1, s =>
    match parseValue fuel s with
    | none => none
    | some (v, s1) =>
      match skipSpace s1 with
      | ']' :: rest => some ([v], rest)
      | ',' :: s2 => (parseElements fuel (skipSpace s2)).map (fun p => (v :: p.1, p.2))
      | _ => none
end

/-- A JSON text: one value with white space allowed around it and nothing
else (what `json.Valid` accepts), as a value. -/
def parse (data : GoString) : Option JSON :=
  match parseValue (data.length + 1) (skipSpace data) with
  | none => none
  | some (v, rest) => if skipSpace rest = [] then some v else none

/-- The folding of `strings.EqualFold` on a character that can meet an ASCII
letter: upper case to lower case, and the two characters outside ASCII that
fold to an ASCII letter, U+017F to `s` and U+212A to `k`. -/
def foldRune (c : Char) : Char :=
  if 'A' ≤ c ∧ c ≤ 'Z' then Char.ofNat (c.toNat + 32)
  else if c.toNat = 0x17F then 's'
  else if c.toNat = 0x212A then 'k'
  else c

/-- Whether the object key `key` names the struct field with the JSON name
`name` (an ASCII name): an exact match or a match under case folding. -/
def keyMatches (name key : GoString) : Bool :=
  key = name || key.map foldRune = name.map foldRune

/-- The decoding of the members of an object into a `Response`: a string
value under a key that names a field is stored in the field, `null` leaves
the field as it is, a value of another kind is a type error (`none`), and a
key that names no field is skipped.  For a repeated key the last value stays. -/
def decodeMembers : List (GoString × JSON) → Response → Option Response
  | [], acc => some acc
  | (key, v) :: rest, acc =>
    if keyMatches "status".toList key then
      match v with
      | .string s => decodeMembers rest { acc with Status := s }
      | .null => decodeMembers rest acc
      | _ => none
    else if keyMatches "version".toList key then
      match v with
      | .string s => decodeMembers rest { acc with Version := s }
      | .null => decodeMembers rest acc
      | _ => none
    else decodeMembers rest acc

/-- `json.Unmarshal(data, &v)` for a `v` of type `Response` holding the zero
value: `none` for a syntax or type error, otherwise the decoded value. -/
def Unmarshal (data : GoString) : Option Response :=
  match parse data with
  | none => none
  | some .null => some { Status := [], Version := [] }
  | some (.object members) => decodeMembers members { Status := [], Version := [] }
  | some _ => none

/-! ## Inputs used as examples -/

/-- The request `GET /`. -/
def rootRequest : Request :=
  { Method := "GET".toList, Host := "localhost:8080".toList, Path := "/".toList,
    RawQuery := [], Header := Header.empty, Body := [] }

/-- The request `GET /health`. -/
def healthRequest : Request :=
  { Method := "GET".toList, Host := "localhost:8080".toList, Path := "/health".toList,
    RawQuery := [], Header := Header.empty, Body := [] }

/-- The request `POST /?verbose=1` with a header and a body. -/
def postRequest : Request :=
  { Method := "POST".toList, Host := "example.org".toList, Path := "/".toList,
    RawQuery := "verbose=1".toList,
    Header := Header.empty.Set "Content-Type".toList "text/plain".toList,
    Body := "ping".toList }

/-- The request `HEAD /`. -/
def headRequest : Request :=
  { Method := "HEAD".toList, Host := "localhost:8080".toList, Path := "/".toList,
    RawQuery := [], Header := Header.empty, Body := [] }

/-- The request `GET //health?full=1`, whose path is not canonical. -/
def slashRequest : Request :=
  { Method := "GET".toList, Host := "localhost:8080".toList, Path := "//health".toList,
    RawQuery := "full=1".toList, Header := Header.empty, Body := [] }

/-- The reply of the status handler to a request of the method `method`,
written out: the handler writes the same bytes for every method, and the
server sends them unless the method is `HEAD`. -/
def statusReplyTo (method : GoString) : ResponseWriter :=
  { reqMethod := method,
    handlerHeader := ⟨[("Content-Type".toList, ["application/json".toList])]⟩,
    wroteHeader := true,
    status := 200,
    sentHeader := ⟨[("Content-Type".toList, ["application/json".toList])]⟩,
    body := "\x7b\"status\":\"secure\",\"version\":\"1.0.0\"\x7d\n".toList,
    sent := if method = "HEAD".toList then []
      else "\x7b\"status\":\"secure\",\"version\":\"1.0.0\"\x7d\n".toList }

/-- The reply of the status handler on a fresh writer, written out. -/
def statusReply : ResponseWriter :=
  statusReplyTo "GET".toList

/-- The JSON object with the two members `status` and `version` of the
served value. -/
def statusObject : JSON :=
  .object [("status".toList, .string "secure".toList),
           ("version".toList, .string "1.0.0".toList)]

/-! ## Lemmas on the route table of `main` -/

theorem handler_fresh (r : Request) : handler ResponseWriter.fresh r = statusReply := rfl

theorem handler_newResponse (r : Request) :
    handler (newResponse r) r = statusReplyTo r.Method := rfl

theorem statusReplyTo_not_head (method : GoString) (h : method ≠ "HEAD".toList) :
    (statusReplyTo method).sent =
      "\x7b\"status\":\"secure\",\"version\":\"1.0.0\"\x7d\n".toList := by
  unfold statusReplyTo
  simp only [if_neg h]

theorem statusReplyTo_head (method : GoString) (h : method = "HEAD".toList) :
    (statusReplyTo method).sent = [] := by
  unfold statusReplyTo
  simp only [if_pos h]

theorem mainMux_eq :
    mainMux = { m := [⟨handler, ['/']⟩], es := [⟨handler, ['/']⟩] } := rfl

theorem mainMux_lookup_root : mainMux.lookup ['/'] = some ⟨handler, ['/']⟩ := rfl

theorem mainMux_lookup_other (p : GoString) (hp : p ≠ ['/']) : mainMux.lookup p = none := by
  have h : ¬ (['/'] = p) := fun h => hp h.symm
  simp [mainMux_eq, ServeMux.lookup, List.find?, h]

theorem mainMux_shouldRedirect (p : GoString) : mainMux.shouldRedirectRLocked p = false := by
  unfold ServeMux.shouldRedirectRLocked
  by_cases hp : p = ['/']
  · subst hp
    simp [mainMux_lookup_root]
  · rw [mainMux_lookup_other p hp]
    by_cases h0 : p.length = 0
    · simp [h0]
    · have hne : p ++ ['/'] ≠ ['/'] := by
        intro h
        have := congrArg List.length h
        simp at this
        exact h0 (by simpa using this)
      rw [mainMux_lookup_other _ hne]
      simp [h0]

theorem mainMux_handler_rooted (p : GoString) (hp : p.head? = some '/') :
    mainMux.handler p = .found handler ['/'] := by
  unfold ServeMux.handler ServeMux.match
  by_cases h : p = ['/']
  · subst h
    simp [mainMux_lookup_root]
  · rw [mainMux_lookup_other p h]
    cases p with
    | nil => simp at hp
    | cons c cs =>
      simp at hp
      subst hp
      simp [mainMux_eq, List.find?, List.isPrefixOf]

theorem mainMux_handler_unrooted (p : GoString) (hp : p.head? ≠ some '/') :
    mainMux.handler p = .notFound := by
  unfold ServeMux.handler ServeMux.match
  have h : p ≠ ['/'] := by
    intro h
    subst h
    simp at hp
  rw [mainMux_lookup_other p h]
  cases p with
  | nil => simp [mainMux_eq, List.find?, List.isPrefixOf]
  | cons c cs =>
    have hc : ¬ ('/' = c) := by
      intro hc
      subst hc
      simp at hp
    have hb : ('/' == c) = false := by simp [hc]
    simp [mainMux_eq, List.find?, List.isPrefixOf, hb]

/-- For a request whose path is rooted and either canonical or sent with
`CONNECT` the route table of `main` selects the status handler. -/
theorem dispatch_rooted (r : Request) (hp : r.Path.head? = some '/')
    (hc : r.Method = "CONNECT".toList ∨ cleanPath r.Path = r.Path) :
    mainMux.Handler r = .found handler "/".toList := by
  unfold ServeMux.Handler
  by_cases hm : r.Method = "CONNECT".toList
  · simp only [hm, if_true, mainMux_shouldRedirect]
    simpa using mainMux_handler_rooted r.Path hp
  · have hcp : cleanPath r.Path = r.Path := by
      rcases hc with h | h
      · exact absurd h hm
      · exact h
    simp only [hm, if_false, hcp, mainMux_shouldRedirect]
    simpa using mainMux_handler_rooted r.Path hp

/-- A request that is not the asterisk request and whose path is rooted and
either canonical or sent with `CONNECT` is answered by the handler of `main`. -/
theorem serve_rooted (r : Request) (hp : r.Path.head? = some '/')
    (hc : r.Method = "CONNECT".toList ∨ cleanPath r.Path = r.Path) :
    serve mainMux r = statusReplyTo r.Method := by
  have hstar : r.Path ≠ ['*'] := by
    intro h
    rw [h] at hp
    simp at hp
  unfold serve ServeMux.ServeHTTP
  simp only [hstar, false_and, if_false]
  rw [dispatch_rooted r hp hc]
  show finishRequest (handler (newResponse r) r) = statusReplyTo r.Method
  rw [handler_newResponse]
  rfl

theorem serve_root (r : Request) (h : r.Path = "/".toList) :
    serve mainMux r = statusReplyTo r.Method := by
  apply serve_rooted r
  · rw [h]; rfl
  · right
    rw [h]
    rfl


/-! ## Lemmas on `main` -/

theorem handleFunc_main : DefaultServeMux.HandleFunc "/".toList handler = some mainMux := rfl

theorem mainMux_routes : mainMux.m.map (·.pattern) = ["/".toList] := rfl

theorem main_bind_fails (world : World) (err : GoString)
    (h : world.listen ":8080".toList = .bindFails err) :
    main world =
      { events := [.HandleFunc "/".toList, .Log "Server starting on :8080...".toList,
                   .Listen ":8080".toList ["/".toList], .Log err, .Exit 1],
        exit := some 1 } := by
  unfold main
  rw [handleFunc_main]
  simp only [ListenAndServe, h, logFatal, mainMux_routes]
  rfl

theorem main_serves_then_fails (world : World) (requests : List Request) (err : GoString)
    (h : world.listen ":8080".toList = .serves requests (some err)) :
    main world =
      { events := [.HandleFunc "/".toList, .Log "Server starting on :8080...".toList,
                   .Listen ":8080".toList ["/".toList]] ++
                  (requests.map (fun r => Event.Served r (serve mainMux r)) ++
                    [.Log err, .Exit 1]),
        exit := some 1 } := by
  unfold main
  rw [handleFunc_main]
  simp only [ListenAndServe, h, logFatal, mainMux_routes]
  simp

theorem main_serves_on (world : World) (requests : List Request)
    (h : world.listen ":8080".toList = .serves requests none) :
    main world =
      { events := [.HandleFunc "/".toList, .Log "Server starting on :8080...".toList,
                   .Listen ":8080".toList ["/".toList]] ++
                  requests.map (fun r => Event.Served r (serve mainMux r)),
        exit := none } := by
  unfold main
  rw [handleFunc_main]
  simp only [ListenAndServe, h, logFatal, mainMux_routes]
  simp

/-- A request other than `CONNECT` whose rooted path is not canonical is
answered with a redirect to the canonical path. -/
theorem serve_not_canonical (r : Request) (hp : r.Path.head? = some '/')
    (hm : r.Method ≠ "CONNECT".toList) (hc : cleanPath r.Path ≠ r.Path) :
    mainMux.Handler r = .redirect (cleanPath r.Path) r.RawQuery ∧
    serve mainMux r =
      finishRequest (Redirect (newResponse r) r (URLString (cleanPath r.Path) r.RawQuery)) := by
  have hstar : r.Path ≠ ['*'] := by
    intro h
    rw [h] at hp
    simp at hp
  have hH : mainMux.Handler r = .redirect (cleanPath r.Path) r.RawQuery := by
    unfold ServeMux.Handler
    simp only [if_neg hm, mainMux_shouldRedirect, Bool.false_eq_true, if_false, ne_eq, hc,
      not_false_eq_true, if_true]
  refine ⟨hH, ?_⟩
  unfold serve ServeMux.ServeHTTP
  simp only [hstar, false_and, if_false]
  rw [hH]

theorem redirect_status (r : Request) (url : GoString) :
    (finishRequest (Redirect (newResponse r) r url)).status = 301 := by
  unfold Redirect
  simp only []
  split_ifs <;>
    simp [finishRequest, ResponseWriter.Write, ResponseWriter.WriteHeader,
      ResponseWriter.HeaderSet, newResponse, ResponseWriter.fresh, StatusMovedPermanently,
      StatusOK, bodyAllowedForStatus]

/-! ## The fuel of `path.Clean` is enough -/

theorem copyElement_fst_ge (path : GoString) :
    ∀ (fuel r : Nat) (out : lazybuf), r ≤ (copyElement path fuel r out).1 := by
  intro fuel
  induction fuel with
  | zero => intro r out; simp [copyElement]
  | succ k ih =>
    intro r out
    rw [copyElement]
    split_ifs with h
    · exact Nat.le_of_succ_le (ih (r + 1) _)
    · exact Nat.le_refl r

theorem copyElement_fst_gt (path : GoString) (fuel r : Nat) (out : lazybuf)
    (hf : 0 < fuel) (hr : r < path.length) (hc : path.getD r '/' ≠ '/') :
    r < (copyElement path fuel r out).1 := by
  obtain ⟨k, rfl⟩ : ∃ k, fuel = k + 1 := ⟨fuel - 1, by omega⟩
  rw [copyElement]
  rw [if_pos ⟨hr, hc⟩]
  exact copyElement_fst_ge path k (r + 1) _

/-- More fuel than the bytes left changes nothing: the main loop of
`path.Clean` never stops for lack of fuel. -/
theorem cleanLoop_fuel (path : GoString) (rooted : Bool) :
    ∀ (fuel r dotdot : Nat) (out : lazybuf), path.length < fuel + r →
      cleanLoop path rooted (fuel + 1) r dotdot out = cleanLoop path rooted fuel r dotdot out := by
  intro fuel
  induction fuel with
  | zero =>
    intro r dotdot out h
    have hr : ¬ r < path.length := by omega
    simp [cleanLoop, hr]
  | succ k ih =>
    intro r dotdot out h
    rw [cleanLoop]
    conv_rhs => rw [cleanLoop]
    simp only []
    split_ifs with h1 h2
    all_goals first
      | rfl
      | exact ih _ _ _ (by omega)
      | (apply ih
         have hgt := copyElement_fst_gt path path.length r (out.append '/') (by omega) h1 h2
         omega)
      | (apply ih
         have hgt := copyElement_fst_gt path path.length r out (by omega) h1 h2
         omega)

/-- The element loop of `path.Clean` never stops for lack of fuel. -/
theorem copyElement_fuel (path : GoString) :
    ∀ (fuel r : Nat) (out : lazybuf), path.length ≤ fuel + r →
      copyElement path (fuel + 1) r out = copyElement path fuel r out := by
  intro fuel
  induction fuel with
  | zero =>
    intro r out h
    have hr : ¬ r < path.length := by omega
    simp [copyElement, hr]
  | succ k ih =>
    intro r out h
    rw [copyElement]
    conv_rhs => rw [copyElement]
    split_ifs
    · exact ih _ _ (by omega)
    · rfl

/-- The loop of `path.Clean` that drops an element never stops for lack of
fuel. -/
theorem backtrack_fuel (dotdot : Nat) :
    ∀ (fuel : Nat) (out : lazybuf), out.w ≤ fuel →
      backtrack dotdot (fuel + 1) out = backtrack dotdot fuel out := by
  intro fuel
  induction fuel with
  | zero =>
    intro out h
    have hw : ¬ out.w > dotdot := by omega
    simp [backtrack, hw]
  | succ k ih =>
    intro out h
    rw [backtrack]
    conv_rhs => rw [backtrack]
    split_ifs
    · exact ih _ (by simp; omega)
    · rfl

/-- With any amount of fuel beyond the one `Clean` supplies the main loop
gives the same result. -/
theorem cleanLoop_fuel_enough (path : GoString) (rooted : Bool) (r dotdot : Nat)
    (out : lazybuf) (extra : Nat) :
    cleanLoop path rooted (path.length + 1 + extra) r dotdot out =
      cleanLoop path rooted (path.length + 1) r dotdot out := by
  induction extra with
  | zero => rfl
  | succ e ih =>
    rw [← ih]
    exact cleanLoop_fuel path rooted (path.length + 1 + e) r dotdot out (by omega)

/-! ## The handler on a writer whose header is not written yet -/

theorem canonical_content_type :
    CanonicalMIMEHeaderKey "Content-Type".toList = "Content-Type".toList := rfl

theorem marshal_resp :
    Marshal resp.toValue = .ok "\x7b\"status\":\"secure\",\"version\":\"1.0.0\"\x7d".toList := rfl

theorem values_after_set (h : Header) (v : GoString) :
    (h.Set "Content-Type".toList v).Values "Content-Type".toList = [v] := by
  simp [Header.Set, Header.Values, canonical_content_type, List.lookup]

theorem handler_unwritten (w : ResponseWriter) (r : Request) (hw : w.wroteHeader = false) :
    handler w r =
      { w with
        handlerHeader := w.handlerHeader.Set "Content-Type".toList "application/json".toList,
        wroteHeader := true,
        status := 200,
        sentHeader := w.handlerHeader.Set "Content-Type".toList "application/json".toList,
        body := w.body ++ "\x7b\"status\":\"secure\",\"version\":\"1.0.0\"\x7d\n".toList,
        sent :=
          if w.reqMethod = "HEAD".toList then w.sent
          else w.sent ++ "\x7b\"status\":\"secure\",\"version\":\"1.0.0\"\x7d\n".toList } := by
  simp [handler, handlerEncode, handlerSetHeader, Encode, marshal_resp, ResponseWriter.Write,
    ResponseWriter.WriteHeader, ResponseWriter.HeaderSet, hw, StatusOK, bodyAllowedForStatus]

/-! ## The claims -/

/-- C1 as stated fails at `HEAD /`: the path is `/`, the request reaches the
handler and the status is 200, yet the server sends no body byte, and the
empty body does not parse as JSON. -/
theorem head_root_has_no_body :
    headRequest.Path = "/".toList ∧
    serve mainMux headRequest = handler (newResponse headRequest) headRequest ∧
    (serve mainMux headRequest).status = 200 ∧
    (serve mainMux headRequest).sent = [] ∧
    parse (serve mainMux headRequest).sent = none := by
  have h : serve mainMux headRequest = statusReplyTo "HEAD".toList :=
    serve_root headRequest rfl
  rw [h]
  exact ⟨rfl, rfl, rfl, rfl, rfl⟩

/-- C1 amended: every request whose path is exactly `/`, whatever its
headers and body, is answered by the registered handler with status code 200
and `Content-Type: application/json`.  For every method but `HEAD` the body
sent parses as a JSON object of exactly two members, `status` with the string
`secure` and `version` with the string `1.0.0`; for `HEAD` no body is sent. -/
theorem root_reply_is_status_json (r : Request) (h : r.Path = "/".toList) :
    serve mainMux r = handler (newResponse r) r ∧
    (serve mainMux r).status = 200 ∧
    (serve mainMux r).sentHeader.Values "Content-Type".toList = ["application/json".toList] ∧
    (r.Method ≠ "HEAD".toList →
      (serve mainMux r).sent = "\x7b\"status\":\"secure\",\"version\":\"1.0.0\"\x7d\n".toList ∧
      parse (serve mainMux r).sent =
        some (.object [("status".toList, .string "secure".toList),
                       ("version".toList, .string "1.0.0".toList)])) ∧
    (r.Method = "HEAD".toList → (serve mainMux r).sent = []) := by
  rw [serve_root r h]
  refine ⟨(handler_newResponse r).symm, rfl, rfl, ?_, ?_⟩
  · intro hm
    rw [statusReplyTo_not_head _ hm]
    exact ⟨rfl, rfl⟩
  · intro hm
    exact statusReplyTo_head _ hm

/-- The theorem of C1 amended at the request `POST /?verbose=1` with a header
and a body. -/
theorem root_reply_is_status_json_witness :
    postRequest.Path = "/".toList ∧
    postRequest.Method ≠ "HEAD".toList ∧
    (serve mainMux postRequest).status = 200 ∧
    (serve mainMux postRequest).sent =
      "\x7b\"status\":\"secure\",\"version\":\"1.0.0\"\x7d\n".toList ∧
    parse (serve mainMux postRequest).sent =
      some (.object [("status".toList, .string "secure".toList),
                     ("version".toList, .string "1.0.0".toList)]) :=
  ⟨rfl, by decide, (root_reply_is_status_json postRequest rfl).2.1,
    ((root_reply_is_status_json postRequest rfl).2.2.2.1 (by decide)).1,
    ((root_reply_is_status_json postRequest rfl).2.2.2.1 (by decide)).2⟩

/-- C2: for every request given to the handler on a writer whose header is
not written yet, the `Content-Type` header is set while no header and no body
byte has been written, and the header sent with the response carries
`Content-Type` with the single value `application/json`; the body bytes are
appended after that. -/
theorem content_type_set_before_body (w : ResponseWriter) (r : Request)
    (hw : w.wroteHeader = false) :
    (handlerSetHeader w).wroteHeader = false ∧
    (handlerSetHeader w).body = w.body ∧
    (handlerSetHeader w).handlerHeader.Values "Content-Type".toList =
      ["application/json".toList] ∧
    (handler w r).wroteHeader = true ∧
    (handler w r).sentHeader.Values "Content-Type".toList = ["application/json".toList] ∧
    (handler w r).body = w.body ++ "\x7b\"status\":\"secure\",\"version\":\"1.0.0\"\x7d\n".toList := by
  rw [handler_unwritten w r hw]
  refine ⟨hw, rfl, ?_, rfl, ?_, rfl⟩
  · exact values_after_set _ _
  · exact values_after_set _ _

/-- The theorem of C2 at the fresh writer and the request `GET /`. -/
theorem content_type_set_before_body_witness :
    ResponseWriter.fresh.wroteHeader = false ∧
    (handlerSetHeader ResponseWriter.fresh).body = [] ∧
    (handler ResponseWriter.fresh rootRequest).sentHeader.Values "Content-Type".toList =
      ["application/json".toList] :=
  ⟨rfl, (content_type_set_before_body ResponseWriter.fresh rootRequest rfl).2.1,
    (content_type_set_before_body ResponseWriter.fresh rootRequest rfl).2.2.2.2.1⟩

/-- C3 as stated fails at `GET /health`: the path is not `/`, yet the route
table dispatches it to the status handler, and the reply is the 200 JSON
payload and not the not-found reply. -/
theorem health_is_answered_by_handler :
    healthRequest.Path ≠ "/".toList ∧
    serve mainMux healthRequest = handler ResponseWriter.fresh healthRequest ∧
    (serve mainMux healthRequest).status = 200 ∧
    (serve mainMux healthRequest).body =
      "\x7b\"status\":\"secure\",\"version\":\"1.0.0\"\x7d\n".toList ∧
    (serve mainMux healthRequest).sent =
      "\x7b\"status\":\"secure\",\"version\":\"1.0.0\"\x7d\n".toList ∧
    serve mainMux healthRequest ≠
      finishRequest (NotFound ResponseWriter.fresh healthRequest) := by
  have h : serve mainMux healthRequest = statusReply :=
    serve_rooted healthRequest rfl (Or.inr rfl)
  rw [h]
  refine ⟨by decide, rfl, rfl, rfl, rfl, by decide⟩

/-- C3 amended: the pattern `/` matches every rooted path, so a request to a
path other than `/` is not given the not-found reply.  For every request
whose path begins with a slash the reply is never the 404.  When the path is
in canonical form or the method is `CONNECT`, the route table selects the
status handler and the reply is the 200 JSON payload (for `HEAD` without the
body).  Otherwise the route table selects the redirect handler for the
canonical path with the query of the request, and the reply has status 301. -/
theorem rooted_paths_reach_handler (r : Request) (hp : r.Path.head? = some '/') :
    (serve mainMux r).status ≠ StatusNotFound ∧
    (r.Method = "CONNECT".toList ∨ cleanPath r.Path = r.Path →
      mainMux.Handler r = .found handler "/".toList ∧
      serve mainMux r = handler (newResponse r) r ∧
      (serve mainMux r).status = 200 ∧
      (r.Method ≠ "HEAD".toList →
        (serve mainMux r).sent =
          "\x7b\"status\":\"secure\",\"version\":\"1.0.0\"\x7d\n".toList) ∧
      (r.Method = "HEAD".toList → (serve mainMux r).sent = [])) ∧
    (r.Method ≠ "CONNECT".toList ∧ cleanPath r.Path ≠ r.Path →
      mainMux.Handler r = .redirect (cleanPath r.Path) r.RawQuery ∧
      (serve mainMux r).status = StatusMovedPermanently) := by
  have hbad : r.Method ≠ "CONNECT".toList ∧ cleanPath r.Path ≠ r.Path →
      mainMux.Handler r = .redirect (cleanPath r.Path) r.RawQuery ∧
      (serve mainMux r).status = StatusMovedPermanently := by
    intro h
    obtain ⟨hd, hs⟩ := serve_not_canonical r hp h.1 h.2
    refine ⟨hd, ?_⟩
    rw [hs, redirect_status]
    rfl
  refine ⟨?_, ?_, hbad⟩
  · by_cases hc : r.Method = "CONNECT".toList ∨ cleanPath r.Path = r.Path
    · rw [serve_rooted r hp hc]
      show (200 : Nat) ≠ StatusNotFound
      decide
    · have hc' : r.Method ≠ "CONNECT".toList ∧ cleanPath r.Path ≠ r.Path :=
        ⟨fun h => hc (Or.inl h), fun h => hc (Or.inr h)⟩
      rw [(hbad hc').2]
      decide
  · intro hc
    refine ⟨dispatch_rooted r hp hc, ?_⟩
    rw [serve_rooted r hp hc]
    refine ⟨(handler_newResponse r).symm, rfl, ?_, ?_⟩
    · intro hm
      exact statusReplyTo_not_head _ hm
    · intro hm
      exact statusReplyTo_head _ hm

/-- The theorem of C3 amended at `GET /health`, whose path is canonical, and
at `GET //health?full=1`, whose path is not: the first gets the 200 JSON
payload, the second is redirected to `/health?full=1`. -/
theorem rooted_paths_reach_handler_witness :
    (healthRequest.Path.head? = some '/' ∧
      cleanPath healthRequest.Path = healthRequest.Path ∧
      healthRequest.Method ≠ "HEAD".toList ∧
      (serve mainMux healthRequest).status ≠ StatusNotFound ∧
      (serve mainMux healthRequest).status = 200 ∧
      (serve mainMux healthRequest).sent =
        "\x7b\"status\":\"secure\",\"version\":\"1.0.0\"\x7d\n".toList) ∧
    (slashRequest.Path.head? = some '/' ∧
      slashRequest.Method ≠ "CONNECT".toList ∧
      cleanPath slashRequest.Path = "/health".toList ∧
      cleanPath slashRequest.Path ≠ slashRequest.Path ∧
      mainMux.Handler slashRequest = .redirect "/health".toList "full=1".toList ∧
      (serve mainMux slashRequest).status = 301 ∧
      (serve mainMux slashRequest).sentHeader.Values "Location".toList =
        ["/health?full=1".toList]) :=
  ⟨⟨rfl, rfl, by decide, (rooted_paths_reach_handler healthRequest rfl).1,
      ((rooted_paths_reach_handler healthRequest rfl).2.1 (Or.inr rfl)).2.2.1,
      ((rooted_paths_reach_handler healthRequest rfl).2.1 (Or.inr rfl)).2.2.2.1 (by decide)⟩,
    ⟨rfl, by decide, rfl, by decide,
      ((rooted_paths_reach_handler slashRequest rfl).2.2 ⟨by decide, by decide⟩).1,
      ((rooted_paths_reach_handler slashRequest rfl).2.2 ⟨by decide, by decide⟩).2,
      rfl⟩⟩

/-- C4: the handler's reply does not depend on the request: on the same
writer, any two requests get the same status code, the same headers and the
same body bytes, and the same error from `Encode`. -/
theorem handler_ignores_request (w : ResponseWriter) (r1 r2 : Request) :
    handler w r1 = handler w r2 ∧
    (handler w r1).status = (handler w r2).status ∧
    (handler w r1).sentHeader = (handler w r2).sentHeader ∧
    (handler w r1).handlerHeader = (handler w r2).handlerHeader ∧
    (handler w r1).body = (handler w r2).body :=
  ⟨rfl, rfl, rfl, rfl, rfl⟩

/-- C5 as stated fails at `GET /`: the body is not the bare object, one more
byte follows the closing brace. -/
theorem root_body_is_not_bare_object :
    rootRequest.Path = "/".toList ∧
    (serve mainMux rootRequest).body ≠ "\x7b\"status\":\"secure\",\"version\":\"1.0.0\"\x7d".toList ∧
    (serve mainMux rootRequest).body.length = 38 ∧
    (serve mainMux rootRequest).body.getLast? = some '\n' := by
  have h : serve mainMux rootRequest = statusReply := serve_root rootRequest rfl
  rw [h]
  exact ⟨rfl, by decide, rfl, rfl⟩

/-- C5 amended: for every request to `/` the body is exactly the byte string
`{"status":"secure","version":"1.0.0"}` followed by the one line feed that
`Encode` appends: `status` comes before `version`, the object holds no
white space, and nothing precedes the object. -/
theorem root_body_is_object_and_newline (r : Request) (h : r.Path = "/".toList) :
    (serve mainMux r).body =
      "\x7b\"status\":\"secure\",\"version\":\"1.0.0\"\x7d".toList ++ ['\n'] ∧
    (∀ c ∈ "\x7b\"status\":\"secure\",\"version\":\"1.0.0\"\x7d".toList, isSpace c = false) := by
  rw [serve_root r h]
  exact ⟨rfl, by decide⟩

/-- The theorem of C5 amended at `GET /`. -/
theorem root_body_is_object_and_newline_witness :
    rootRequest.Path = "/".toList ∧
    (serve mainMux rootRequest).body =
      "\x7b\"status\":\"secure\",\"version\":\"1.0.0\"\x7d".toList ++ ['\n'] :=
  ⟨rfl, (root_body_is_object_and_newline rootRequest rfl).1⟩

/-- C7: the body the handler writes is valid JSON; decoding it into a
`Response` gives the served value, encoding the decoded value again gives
the same bytes, and so the same JSON value with the two members `status`
and `version`. -/
theorem body_decodes_and_encodes_back (r : Request) :
    parse (handler ResponseWriter.fresh r).body = some statusObject ∧
    Unmarshal (handler ResponseWriter.fresh r).body = some resp ∧
    (∀ d, Unmarshal (handler ResponseWriter.fresh r).body = some d →
      (Encode ResponseWriter.fresh d.toValue).1.body = (handler ResponseWriter.fresh r).body ∧
      ∀ b, Marshal d.toValue = .ok b →
        parse b = parse (handler ResponseWriter.fresh r).body) := by
  rw [handler_fresh]
  refine ⟨rfl, rfl, ?_⟩
  intro d hd
  have hd' : some resp = some d := by
    rw [← hd]
    rfl
  cases hd'
  refine ⟨rfl, ?_⟩
  intro b hb
  rw [marshal_resp] at hb
  cases hb
  rfl

/-- C9: encoding a `Response` never fails, whatever its two strings are, so
the error of `Encode` that the handler drops is never an encoding error; on
the writer of a new request there is no error at all and the handler returns
with the header written and the whole body in the writer. -/
theorem handler_cannot_fail (w : ResponseWriter) (r : Request) :
    (∀ v : Response, ∃ b, Marshal v.toValue = .ok b) ∧
    (∀ e, (handlerEncode (handlerSetHeader w)).2 ≠ some (.marshal e)) ∧
    (handlerEncode (handlerSetHeader ResponseWriter.fresh)).2 = none ∧
    (handler ResponseWriter.fresh r).wroteHeader = true ∧
    (handler ResponseWriter.fresh r).body =
      "\x7b\"status\":\"secure\",\"version\":\"1.0.0\"\x7d\n".toList := by
  refine ⟨?_, ?_, rfl, rfl, rfl⟩
  · intro v
    exact ⟨_, rfl⟩
  · intro e
    unfold handlerEncode Encode
    rw [marshal_resp]
    simp only
    split <;> simp

/-- C6: when listening on `:8080` fails to bind, `main` logs the error and
ends the process with exit status 1, which is not zero; `ListenAndServe` is
called once and not again, and no request is served. -/
theorem bind_failure_is_fatal (world : World) (err : GoString)
    (h : world.listen ":8080".toList = .bindFails err) :
    (main world).events =
      [.HandleFunc "/".toList, .Log "Server starting on :8080...".toList,
       .Listen ":8080".toList ["/".toList], .Log err, .Exit 1] ∧
    (main world).exit = some 1 ∧
    (main world).exit ≠ some 0 ∧
    ((main world).events.filter Event.isListen).length = 1 ∧
    (main world).events.filter Event.isServed = [] ∧
    (main world).events.getLast? = some (.Exit 1) := by
  rw [main_bind_fails world err h]
  refine ⟨rfl, rfl, by simp, ?_, ?_, rfl⟩
  · simp [List.filter, Event.isListen]
  · simp [List.filter, Event.isServed]

/-- The theorem of C6 in the world where the port is taken. -/
theorem bind_failure_is_fatal_witness :
    busyWorld.listen ":8080".toList =
      .bindFails "listen tcp :8080: bind: address already in use".toList ∧
    (main busyWorld).exit = some 1 ∧
    ((main busyWorld).events.filter Event.isListen).length = 1 :=
  ⟨rfl, (bind_failure_is_fatal busyWorld _ rfl).2.1, (bind_failure_is_fatal busyWorld _ rfl).2.2.2.1⟩

/-- C10: on every run `main` first registers one route, the pattern `/`,
then writes one log line, `Server starting on :8080...`, and only then
listens, on the address `:8080` that the log line names, with the default
route table holding that one route; nothing is registered and no listening
is started afterwards, and the command line and the environment change
nothing. -/
theorem startup_order (world : World) :
    (∃ rest,
      (main world).events =
        [.HandleFunc "/".toList,
         .Log ("Server starting on ".toList ++ ":8080".toList ++ "...".toList),
         .Listen ":8080".toList ["/".toList]] ++ rest ∧
      ∀ e ∈ rest, e.isHandleFunc = false ∧ e.isListen = false) ∧
    (∀ args environ,
      main { world with args := args, environ := environ } = main world) := by
  constructor
  · cases h : world.listen ":8080".toList with
    | bindFails err =>
      refine ⟨[.Log err, .Exit 1], ?_, ?_⟩
      · rw [main_bind_fails world err h]
        rfl
      · intro e he
        simp at he
        rcases he with rfl | rfl <;> exact ⟨rfl, rfl⟩
    | serves requests err =>
      cases err with
      | none =>
        refine ⟨requests.map (fun r => Event.Served r (serve mainMux r)), ?_, ?_⟩
        · rw [main_serves_on world requests h]
          rfl
        · intro e he
          obtain ⟨r, _, rfl⟩ := List.mem_map.mp he
          exact ⟨rfl, rfl⟩
      | some err =>
        refine ⟨requests.map (fun r => Event.Served r (serve mainMux r)) ++
          [.Log err, .Exit 1], ?_, ?_⟩
        · rw [main_serves_then_fails world requests err h]
          rfl
        · intro e he
          rcases List.mem_append.mp he with he | he
          · obtain ⟨r, _, rfl⟩ := List.mem_map.mp he
            exact ⟨rfl, rfl⟩
          · simp at he
            rcases he with rfl | rfl <;> exact ⟨rfl, rfl⟩
  · intro args environ
    rfl

end StatusService
